import Mathlib

/-!
Shallow embedding of the monthly requirements-and-allocation engine of the
operation-planning repository: the finished-goods / semi-finished release
recurrences (`src/production_plan.py`), the wafer demand translation,
allocation waterfall and gap reporting (`src/wafer_utils.py`), and the
open-order bucketing (`src/summary.py`).

Spreadsheet numbers are modelled as rationals; a cell that may be absent or
blank is modelled as an `Option`.  Python's `round(x, 3)` (used when a
computed figure is written into its output column) is modelled by `roundTo3`.
-/

namespace OperationPlanning

/-- Characters dropped from both ends by Python's `str.strip()`. -/
def stripChars (l : List Char) : List Char :=
  ((l.dropWhile Char.isWhitespace).reverse.dropWhile Char.isWhitespace).reverse

/-- Model of `str.strip()` / pandas `.str.strip()`: whitespace removed from
both ends (defined on the character list so that it evaluates by `decide`). -/
def strip (s : String) : String := ⟨stripChars s.data⟩

/-- Model of Python's `round(x, 3)`: the value rounded to three decimals.
Ties are rounded by `round`, which differs from Python's banker rounding only
at exact half-thousandth ties. -/
def roundTo3 (q : ℚ) : ℚ := (round (q * 1000) : ℤ) / 1000

/-- A rational that is an exact three-decimal value, the form every quantity
read from a spreadsheet cell and already rounded upstream has. -/
def Dec3 (q : ℚ) : Prop := ∃ n : ℤ, q = n / 1000

theorem Dec3_roundTo3_eq {q : ℚ} (h : Dec3 q) : roundTo3 q = q := by
  obtain ⟨n, rfl⟩ := h
  have h1000 : (1000 : ℚ) ≠ 0 := by norm_num
  rw [roundTo3, div_mul_cancel₀ _ h1000, round_intCast]

theorem Dec3_sub {a b : ℚ} (ha : Dec3 a) (hb : Dec3 b) : Dec3 (a - b) := by
  obtain ⟨m, rfl⟩ := ha
  obtain ⟨n, rfl⟩ := hb
  exact ⟨m - n, by push_cast; ring⟩

theorem Dec3_listSum {l : List ℚ} (h : ∀ q ∈ l, Dec3 q) : Dec3 l.sum := by
  induction l with
  | nil => exact ⟨0, by norm_num⟩
  | cons a t ih =>
      obtain ⟨m, hm⟩ := h a (List.mem_cons_self a t)
      obtain ⟨n, hn⟩ := ih (fun q hq => h q (List.mem_cons_of_mem a hq))
      exact ⟨m + n, by rw [List.sum_cons, hm, hn]; push_cast; ring⟩

/-!
## Finished-goods release planner (`src/production_plan.py`, `generate_monthly_fg_plan`)

One independent recurrence per SKU row over the index positions of
`forecast_months` (the final month is a look-ahead only: the loop runs over
`forecast_months[:-1]`).  Per row the relevant cells, each read through
`pd.to_numeric(...).fillna(0)` (so an absent column is 0), are:

  * `InvPart` (piece safety stock), `成品仓` (finished-goods warehouse),
    `成品在制` (finished-goods WIP): scalars;
  * `forecast i`: the `{month}月预测` cell of `forecast_months[i]`;
  * `orders i`: the `未交订单 2025-{month}` cell of `forecast_months[i]`;
  * `sales i`: the `{month}月销售数量` cell (only index 0 is read);
  * `actual i`: the `{month}月成品实际投单` cell (read by the source at
    index `i-1` for periods `i > 0` but not used in the stored result).
-/

/-- One SKU row of the main plan, restricted to the cells the
finished-goods recurrence reads; series are indexed by position in
`forecast_months`. -/
structure FGRow where
  invPart : ℚ
  fgInv : ℚ
  fgWip : ℚ
  forecast : ℕ → ℚ
  orders : ℕ → ℚ
  sales : ℕ → ℚ
  actual : ℕ → ℚ

/-- The stored `成品投单计划` value for period index `i`, exactly as
`generate_monthly_fg_plan` computes it:

  * `i = 0`: if `orders 0 + sales 0 > forecast 0` then
    `InvPart + orders 0 + max (forecast 1) (orders 1) - 成品仓 - 成品在制`,
    else `InvPart + forecast 0 - sales 0 + max (forecast 1) (orders 1) - 成品仓 - 成品在制`;
  * `i+1`: `plan i + max (forecast (i+2)) (orders (i+2))` — the source reads
    the prior month's `成品实际投单` into `v_actual` and mentions it in a
    dead format string, but the stored `result` does not subtract it. -/
def generate_monthly_fg_plan (r : FGRow) : ℕ → ℚ
  | 0 =>
      if r.orders 0 + r.sales 0 > r.forecast 0 then
        r.invPart + r.orders 0 + max (r.forecast 1) (r.orders 1) - r.fgInv - r.fgWip
      else
        r.invPart + r.forecast 0 - r.sales 0 + max (r.forecast 1) (r.orders 1) - r.fgInv - r.fgWip
  | i + 1 =>
      generate_monthly_fg_plan r i + max (r.forecast (i + 2)) (r.orders (i + 2))

/-- The month-0 demand adjustment actually implemented by the code: the raw
open-orders figure once orders-plus-sales exceed the forecast, and
`forecast 0 - sales 0` otherwise. -/
def demand_adjustment_code (r : FGRow) : ℚ :=
  if r.orders 0 + r.sales 0 > r.forecast 0 then r.orders 0 else r.forecast 0 - r.sales 0

/-- Month-0 plan as the spec sentence of claim C2 words it:
`safety_stock_pieces + demand_adjustment(0) + max(forecast[1], open_orders[1])
- finished_goods_warehouse_stock - finished_goods_wip` with
`demand_adjustment(0) = max(forecast[0], open_orders[0])` when
`open_orders[0] + sales[0] <= forecast[0]` and `open_orders[0] + sales[0]`
otherwise. -/
def spec_fg_plan0 (r : FGRow) : ℚ :=
  (if r.orders 0 + r.sales 0 ≤ r.forecast 0 then
    max (r.forecast 0) (r.orders 0)
  else
    r.orders 0 + r.sales 0) + r.invPart + max (r.forecast 1) (r.orders 1) - r.fgInv - r.fgWip

/-- Concrete SKU row exhibiting the i>0 recurrence: month-0 cells all zero
except `forecast 1 = 100`, `forecast 2 = 80`, and a prior-month actual
release of 30. -/
def fgRowC1 : FGRow where
  invPart := 0
  fgInv := 0
  fgWip := 0
  forecast := fun i => if i = 1 then 100 else if i = 2 then 80 else 0
  orders := fun _ => 0
  sales := fun _ => 0
  actual := fun _ => 30

/-- Concrete SKU row for the period-0 formula: safety stock 100, warehouse
stock 50, no WIP, forecast 200/150, no open orders, 10 already sold in
month 0. -/
def fgRowC2 : FGRow where
  invPart := 100
  fgInv := 50
  fgWip := 0
  forecast := fun i => if i = 0 then 200 else if i = 1 then 150 else 0
  orders := fun _ => 0
  sales := fun i => if i = 0 then 10 else 0
  actual := fun _ => 0

/-- C1: the spec's period `i>0` recurrence
`plan[i] = plan[i-1] - actual[i-1] + max(forecast[i+1], open_orders[i+1])`
is not what the code stores.  On `fgRowC1` the code stores
`plan[1] = plan[0] + max(forecast[2], orders[2]) = 180`, while the claimed
recurrence (which the function's own docstring and its dead in-loop format
string both state) yields `100 - 30 + 80 = 150`: the prior month's actual
release is read but never subtracted. -/
theorem claim_C1_recurrence_divergence_at_failing_input :
    generate_monthly_fg_plan fgRowC1 1 = 180 ∧
    generate_monthly_fg_plan fgRowC1 0 - fgRowC1.actual 0 +
      max (fgRowC1.forecast 2) (fgRowC1.orders 2) = 150 ∧
    generate_monthly_fg_plan fgRowC1 1 ≠
      generate_monthly_fg_plan fgRowC1 0 - fgRowC1.actual 0 +
        max (fgRowC1.forecast 2) (fgRowC1.orders 2) := by
  refine ⟨?_, ?_, ?_⟩ <;> norm_num [generate_monthly_fg_plan, fgRowC1]

/-- C2 counterexample: on `fgRowC2` (forecast 200, open orders 0, sales 10 in
month 0, so orders+sales do not exceed forecast) the code stores
`plan[0] = 100 + (200 - 10) + 150 - 50 = 390`, while the claimed formula
uses `max(forecast[0], open_orders[0]) = 200` and yields 400. -/
theorem claim_C2_counterexample :
    generate_monthly_fg_plan fgRowC2 0 = 390 ∧ spec_fg_plan0 fgRowC2 = 400 ∧
    generate_monthly_fg_plan fgRowC2 0 ≠ spec_fg_plan0 fgRowC2 := by
  refine ⟨?_, ?_, ?_⟩ <;> norm_num [generate_monthly_fg_plan, spec_fg_plan0, fgRowC2]

/-- C2 amended: the anchor-month plan equals
`safety_stock_pieces + demand_adjustment(0) + max(forecast[1], open_orders[1])
- finished_goods_warehouse_stock - finished_goods_wip`, where the
demand adjustment is the bare open-orders figure when orders-plus-sales
exceed the forecast, and `forecast[0] - sales[0]` (not
`max(forecast[0], open_orders[0])`) otherwise. -/
theorem claim_C2_period0_formula (r : FGRow) :
    generate_monthly_fg_plan r 0 =
      r.invPart + demand_adjustment_code r + max (r.forecast 1) (r.orders 1)
        - r.fgInv - r.fgWip := by
  rw [generate_monthly_fg_plan, demand_adjustment_code]
  split <;> ring

/-!
## Wafer demand, allocation waterfall and gap reporting (`src/wafer_utils.py`)

Calendar months are linearised to integers; `months : ℕ → ℤ` is the
ascending sequence of months carrying a `YYYY-MM需求` column (the source
sorts these columns by date before iterating), and `first` is the month of
`start_date`.  Per wafer row, `wo m` is the `YYYY-MM WO` cell of month `m`
(`row.get(col, 0)` reads 0 when the column is absent) and `woMonths` lists
the months that have a `WO` column (used for the `wo_date < first_date`
sum).  The yield cell `单片数量` is `Option ℚ`: `none` models an absent
column, for which `row.get("单片数量", 1.0)` returns the default 1.0.
-/

/-- One row of `df_unique_wafer`, restricted to the cells the allocation
waterfall and the gap reporters read. -/
structure WaferRow where
  unitCell : Option ℚ
  poolSplit : ℚ
  poolEng : ℚ
  poolTested : ℚ
  poolUntested : ℚ
  cpWip : ℚ
  fabWarehouse : ℚ
  invPart : ℚ
  woMonths : List ℤ
  wo : ℤ → ℚ
  demand : ℤ → ℚ

/-- The resolved wafer unit
`wafer_unit = pd.to_numeric(row.get("单片数量", 1.0), errors="coerce") or 1.0`:
an absent column gives the default 1.0, and a cell holding 0 is falsy in
Python, so `or 1.0` replaces it by 1.0 as well. -/
def resolveUnit : Option ℚ → ℚ
  | none => 1
  | some q => if q = 0 then 1 else q

/-- Sum of the `WO` cells whose month lies strictly before the anchor month
(`wo_date < first_date`). -/
def woBefore (r : WaferRow) (first : ℤ) : ℚ :=
  ((r.woMonths.filter (fun m => decide (m < first))).map r.wo).sum

/-- The month-0 supply pool of `allocate_fg_demand_monthly`: the four wafer
warehouses, the CP WIP, the fab outbound warehouse (in wafers, converted by
`unit`), and the pre-anchor fab output (also converted). -/
def totalAvailable0 (r : WaferRow) (unit : ℚ) (first : ℤ) : ℚ :=
  r.poolSplit + r.poolEng + r.poolTested + r.poolUntested + r.cpWip +
    r.fabWarehouse * unit + woBefore r first * unit

/-- State of the allocation waterfall after period `i`, with the unit passed
explicitly: first component is `total_available` of period `i`, second is
the carry-forward `rest_prev` left after period `i`
(`rest_prev = max(total_available - demand, 0)`). -/
def waterfallWith (r : WaferRow) (unit : ℚ) (first : ℤ) (months : ℕ → ℤ) :
    ℕ → ℚ × ℚ
  | 0 =>
      let t := totalAvailable0 r unit first
      (t, max (t - r.demand (months 0)) 0)
  | i + 1 =>
      let t := (waterfallWith r unit first months i).2 + r.wo (months i) * unit
      (t, max (t - r.demand (months (i + 1))) 0)

/-- Waterfall state of `allocate_fg_demand_monthly` for the row's own yield
cell. -/
def waterfall (r : WaferRow) (first : ℤ) (months : ℕ → ℤ) : ℕ → ℚ × ℚ :=
  waterfallWith r (resolveUnit r.unitCell) first months

/-- Value `total_available` of period `i`. -/
def total_available (r : WaferRow) (first : ℤ) (months : ℕ → ℤ) (i : ℕ) : ℚ :=
  (waterfall r first months i).1

/-- Carry-forward `rest_prev` after period `i`. -/
def restAfter (r : WaferRow) (first : ℤ) (months : ℕ → ℤ) (i : ℕ) : ℚ :=
  (waterfall r first months i).2

/-- The allocation of period `i`:
`allocated = demand if delta > 0 else total_available` with
`delta = total_available - demand`. -/
def allocate_fg_demand_monthly (r : WaferRow) (first : ℤ) (months : ℕ → ℤ)
    (i : ℕ) : ℚ :=
  let t := total_available r first months i
  let d := r.demand (months i)
  if t - d > 0 then d else t

/-- The value written into the `YYYY-MM分配` column:
`df.at[idx, alloc_col] = round(allocated, 3)`. -/
def allocationStored (r : WaferRow) (first : ℤ) (months : ℕ → ℤ) (i : ℕ) : ℚ :=
  roundTo3 (allocate_fg_demand_monthly r first months i)

/-- C3: the waterfall invariants of `allocate_fg_demand_monthly`.  For every
wafer row and period `i`: the allocation is the demand when
`total_available - demand > 0` and the whole `total_available` otherwise;
the carry-forward is `max(total_available - demand, 0)` and hence never
negative; the next period's `total_available` is the carry-forward plus the
prior month's forecast fab output times the resolved yield; and the
allocation never exceeds the period's demand. -/
theorem claim_C3_waterfall_invariants (r : WaferRow) (first : ℤ)
    (months : ℕ → ℤ) (i : ℕ) :
    allocate_fg_demand_monthly r first months i =
      (if total_available r first months i - r.demand (months i) > 0 then
        r.demand (months i)
      else total_available r first months i) ∧
    restAfter r first months i =
      max (total_available r first months i - r.demand (months i)) 0 ∧
    0 ≤ restAfter r first months i ∧
    total_available r first months (i + 1) =
      restAfter r first months i + r.wo (months i) * resolveUnit r.unitCell ∧
    allocate_fg_demand_monthly r first months i ≤ r.demand (months i) := by
  have h2 : restAfter r first months i =
      max (total_available r first months i - r.demand (months i)) 0 := by
    cases i <;> rfl
  refine ⟨rfl, h2, ?_, rfl, ?_⟩
  · rw [h2]
    exact le_max_right _ _
  · rw [allocate_fg_demand_monthly]
    split
    · exact le_refl _
    · next h => linarith [not_lt.mp h]

/-- The waterfall never reads the yield cell except through `resolveUnit`,
so replacing the cell leaves `waterfallWith` unchanged. -/
theorem waterfallWith_unitCell_irrel (r : WaferRow) (c : Option ℚ) (unit : ℚ)
    (first : ℤ) (months : ℕ → ℤ) (i : ℕ) :
    waterfallWith { r with unitCell := c } unit first months i =
      waterfallWith r unit first months i := by
  induction i with
  | zero => rfl
  | succ n ih => simp [waterfallWith, ih]

/-- Concrete wafer row whose yield cell holds 0: 10 wafers in the split
warehouse, 2 lots in the fab outbound warehouse, demand 3 in the anchor
month. -/
def waferRowC6 : WaferRow where
  unitCell := some 0
  poolSplit := 10
  poolEng := 0
  poolTested := 0
  poolUntested := 0
  cpWip := 0
  fabWarehouse := 2
  invPart := 0
  woMonths := []
  wo := fun _ => 0
  demand := fun _ => 3

/-- C6 counterexample: for `waferRowC6`, whose yield cell is 0 (an
unresolved gross-die value), the allocation is not skipped: period 0 is
allocated 3, exactly the value obtained with yield 1, because
`wafer_unit = ... or 1.0` resolves a 0 yield to 1. -/
theorem claim_C6_counterexample :
    resolveUnit (some 0) = 1 ∧
    allocate_fg_demand_monthly waferRowC6 0 (fun _ => 0) 0 = 3 ∧
    allocate_fg_demand_monthly { waferRowC6 with unitCell := some 1 } 0
      (fun _ => 0) 0 = 3 := by
  refine ⟨rfl, ?_, ?_⟩ <;>
    norm_num [allocate_fg_demand_monthly, total_available, waterfall,
      waterfallWith, totalAvailable0, woBefore, resolveUnit, waferRowC6]

/-- C6 amended: a wafer row whose yield cell is 0, or whose yield column is
absent, is neither skipped nor flagged; the waterfall allocates for it
exactly as it would with yield 1. -/
theorem claim_C6_zero_or_missing_yield_runs_as_one (r : WaferRow)
    (first : ℤ) (months : ℕ → ℤ) (i : ℕ) :
    allocate_fg_demand_monthly { r with unitCell := some 0 } first months i =
      allocate_fg_demand_monthly { r with unitCell := some 1 } first months i ∧
    allocate_fg_demand_monthly { r with unitCell := none } first months i =
      allocate_fg_demand_monthly { r with unitCell := some 1 } first months i := by
  constructor <;>
    simp [allocate_fg_demand_monthly, total_available, waterfall, resolveUnit,
      waterfallWith_unitCell_irrel]

/-!
## Wafer demand translation (`append_monthly_demand_from_fg_plan`)

The source sums the `YYYY-MM成品投单计划` columns of the main plan grouped
by stripped `晶圆品名`, first-differences the sorted columns, subtracts the
wafer row's `InvPart` from the first month, and stores the result rounded
to three decimals as the `YYYY-MM需求` columns.
-/

/-- One main-plan row as seen by the wafer demand translator: its wafer
name and its `成品投单计划` series indexed by sorted month position
(`to_numeric(...).fillna(0)` applied). -/
structure SKURow where
  wafer : String
  plan : ℕ → ℚ

/-- The grouped release plan: sum of `plan i` over the main-plan rows whose
stripped wafer name equals `w`. -/
def groupedPlan (rows : List SKURow) (w : String) (i : ℕ) : ℚ :=
  ((rows.filter (fun r => strip r.wafer == w)).map (fun r => r.plan i)).sum

/-- The stored `YYYY-MM需求` value for the wafer row with stripped name `w`
and piece safety stock `invPart`: the grouped plan of month 0 minus
`InvPart`, then successive differences, each rounded to three decimals. -/
def append_monthly_demand_from_fg_plan (rows : List SKURow) (invPart : ℚ)
    (w : String) : ℕ → ℚ
  | 0 => roundTo3 (groupedPlan rows w 0 - invPart)
  | i + 1 => roundTo3 (groupedPlan rows w (i + 1) - groupedPlan rows w i)

theorem Dec3_groupedPlan {rows : List SKURow} {w : String} {i : ℕ}
    (h : ∀ r ∈ rows, ∀ j, Dec3 (r.plan j)) : Dec3 (groupedPlan rows w i) := by
  refine Dec3_listSum ?_
  intro q hq
  obtain ⟨r, hr, rfl⟩ := List.mem_map.mp hq
  exact h r (List.mem_of_mem_filter hr) i

/-!
## Gap reporting (`append_monthly_gap_columns`, `append_cumulative_gap_columns`)
-/

/-- The stored `YYYY-MM缺口` value: the yield column is first mapped through
`replace({0: nan})`, the per-month difference demand minus allocation is
divided by it, and the `NaN` results (yield 0 or missing) are filled with 0;
the surviving quotients are rounded to three decimals. -/
def append_monthly_gap_columns (demandV allocV : ℚ) (unitCell : Option ℚ) : ℚ :=
  match unitCell with
  | none => 0
  | some u => if u = 0 then 0 else roundTo3 ((demandV - allocV) / u)

/-- Cumulative available supply of `append_cumulative_gap_columns`: starts
from the waterfall's period-0 pool plus `InvPart`, and each later period
adds the prior month's forecast fab output times the resolved yield
(`total_available += wo * wafer_unit`); it is never reduced. -/
def cumAvail (r : WaferRow) (first : ℤ) (months : ℕ → ℤ) : ℕ → ℚ
  | 0 => totalAvailable0 r (resolveUnit r.unitCell) first + r.invPart
  | i + 1 => cumAvail r first months i + r.wo (months i) * resolveUnit r.unitCell

/-- Cumulative demand through period `i`: the sum of the `YYYY-MM需求`
cells of months 0 through `i`. -/
def demandSum (r : WaferRow) (months : ℕ → ℤ) (i : ℕ) : ℚ :=
  ((List.range (i + 1)).map (fun j => r.demand (months j))).sum

/-- The cumulative gap before rounding:
`(demand_sum - total_available) / wafer_unit`. -/
def cumulative_gap (r : WaferRow) (first : ℤ) (months : ℕ → ℤ) (i : ℕ) : ℚ :=
  (demandSum r months i - cumAvail r first months i) / resolveUnit r.unitCell

/-- The stored `YYYY-MM累积缺口` value:
`df.at[idx, gap_col] = round(gap, 3)`. -/
def append_cumulative_gap_columns (r : WaferRow) (first : ℤ)
    (months : ℕ → ℤ) (i : ℕ) : ℚ :=
  roundTo3 (cumulative_gap r first months i)

theorem resolveUnit_some {r : WaferRow} {y : ℚ} (hcell : r.unitCell = some y)
    (hy : y ≠ 0) : resolveUnit r.unitCell = y := by
  rw [hcell, resolveUnit, if_neg hy]

/-- C4: for a wafer type (stripped name `w`) whose cell values are exact
three-decimal quantities, the stored wafer demand series is the first
difference of the per-wafer-type summed release plan: month 0 is the summed
period-0 plan minus the piece safety stock `InvPart`, month `i+1` is the
summed plan of month `i+1` minus that of month `i`, and a decreasing plan
yields a strictly negative demand — never clamped to zero. -/
theorem claim_C4_demand_is_first_difference (rows : List SKURow)
    (invPart : ℚ) (w : String)
    (hplan : ∀ r ∈ rows, ∀ j, Dec3 (r.plan j)) (hinv : Dec3 invPart) :
    append_monthly_demand_from_fg_plan rows invPart w 0 =
      groupedPlan rows w 0 - invPart ∧
    (∀ i, append_monthly_demand_from_fg_plan rows invPart w (i + 1) =
      groupedPlan rows w (i + 1) - groupedPlan rows w i) ∧
    (∀ i, groupedPlan rows w (i + 1) < groupedPlan rows w i →
      append_monthly_demand_from_fg_plan rows invPart w (i + 1) < 0) := by
  have hstep : ∀ i, append_monthly_demand_from_fg_plan rows invPart w (i + 1) =
      groupedPlan rows w (i + 1) - groupedPlan rows w i := by
    intro i
    exact Dec3_roundTo3_eq (Dec3_sub (Dec3_groupedPlan hplan) (Dec3_groupedPlan hplan))
  refine ⟨?_, hstep, ?_⟩
  · exact Dec3_roundTo3_eq (Dec3_sub (Dec3_groupedPlan hplan) hinv)
  · intro i hlt
    rw [hstep i]
    linarith

/-- Concrete main-plan rows for the C4 witness: two SKUs on wafer `W` with
plans 7 and 4 in every month, one SKU on wafer `V`. -/
def rowsC4 : List SKURow :=
  [⟨"W", fun _ => 7⟩, ⟨"W ", fun i => if i = 0 then 4 else 1⟩, ⟨"V", fun _ => 100⟩]

/-- Witness for C4 at `rowsC4`, `InvPart = 2`, wafer `W`: month 0 demand is
`(7 + 4) - 2 = 9` and month 1 demand is `(7 + 1) - (7 + 4) = -3`, negative
preserved. -/
theorem claim_C4_demand_is_first_difference_witness :
    append_monthly_demand_from_fg_plan rowsC4 2 "W" 0 = 9 ∧
    append_monthly_demand_from_fg_plan rowsC4 2 "W" 1 = -3 := by
  have hplan : ∀ r ∈ rowsC4, ∀ j, Dec3 (r.plan j) := by
    intro r hr j
    simp only [rowsC4, List.mem_cons, List.not_mem_nil, or_false] at hr
    rcases hr with rfl | rfl | rfl
    · exact ⟨7000, by norm_num⟩
    · by_cases hj : j = 0
      · exact ⟨4000, by norm_num [hj]⟩
      · exact ⟨1000, by norm_num [hj]⟩
    · exact ⟨100000, by norm_num⟩
  have h := claim_C4_demand_is_first_difference rowsC4 2 "W" hplan ⟨2000, by norm_num⟩
  have hW : (strip "W" == "W") = true := by decide
  have hW2 : (strip "W " == "W") = true := by decide
  have hV : (strip "V" == "W") = false := by decide
  have e0 : groupedPlan rowsC4 "W" 0 = 11 := by
    norm_num [groupedPlan, rowsC4, List.filter_cons, hW, hW2, hV]
  have e1 : groupedPlan rowsC4 "W" 1 = 8 := by
    norm_num [groupedPlan, rowsC4, List.filter_cons, hW, hW2, hV]
  refine ⟨?_, ?_⟩
  · rw [h.1, e0]
    norm_num
  · rw [h.2.1 0, e1, e0]
    norm_num

/-- C5: for a wafer row with a usable nonzero yield `y`, the cumulative gap
(rounded to three decimals when stored) is cumulative demand minus
cumulative available supply, divided by the yield; the supply starts at the
warehouse pools plus CP WIP plus fab warehouse and pre-anchor fab output
(both in die via `y`) plus `InvPart`, grows each period by the prior
month's forecast fab output times `y`, and is never reduced by any
allocation (closed form: period 0 plus the accumulated fab output). -/
theorem claim_C5_cumulative_gap (r : WaferRow) (first : ℤ) (months : ℕ → ℤ)
    (i : ℕ) (y : ℚ) (hcell : r.unitCell = some y) (hy : y ≠ 0) :
    cumulative_gap r first months i =
      (demandSum r months i - cumAvail r first months i) / y ∧
    append_cumulative_gap_columns r first months i =
      roundTo3 ((demandSum r months i - cumAvail r first months i) / y) ∧
    cumAvail r first months 0 =
      r.poolSplit + r.poolEng + r.poolTested + r.poolUntested + r.cpWip +
        r.fabWarehouse * y + woBefore r first * y + r.invPart ∧
    (∀ j, cumAvail r first months (j + 1) =
      cumAvail r first months j + r.wo (months j) * y) ∧
    cumAvail r first months i = cumAvail r first months 0 +
      ((List.range i).map (fun j => r.wo (months j) * y)).sum := by
  have hu := resolveUnit_some hcell hy
  refine ⟨?_, ?_, ?_, ?_, ?_⟩
  · rw [cumulative_gap, hu]
  · rw [append_cumulative_gap_columns, cumulative_gap, hu]
  · rw [cumAvail, totalAvailable0, hu]
  · intro j
    rw [cumAvail, hu]
  · induction i with
    | zero => simp
    | succ n ih =>
        have hstep : cumAvail r first months (n + 1) =
            cumAvail r first months n + r.wo (months n) * y := by
          rw [cumAvail, hu]
        rw [hstep, ih, List.range_succ, List.map_append, List.sum_append,
          List.map_singleton, List.sum_singleton]
        ring

/-- Concrete wafer row for the C5 witness: yield 5, one wafer in each of two
pools, `InvPart = 3`, fab output 10 in month 0, demand 20 per month. -/
def waferRowC5 : WaferRow where
  unitCell := some 5
  poolSplit := 6
  poolEng := 0
  poolTested := 4
  poolUntested := 0
  cpWip := 2
  fabWarehouse := 1
  invPart := 3
  woMonths := [0, 1]
  wo := fun m => if m = 0 then 10 else 0
  demand := fun _ => 20

/-- Witness for C5 at `waferRowC5` with anchor month 1 and horizon months
1, 2: supply at period 0 is `6 + 4 + 2 + 1*5 + 10*5 + 3 = 70` (the month-0
fab output predates the anchor), and the period-1 gap is
`(40 - 70 - 0*5) / 5 = -6`. -/
theorem claim_C5_cumulative_gap_witness :
    cumulative_gap waferRowC5 1 (fun j => 1 + j) 1 = -6 ∧
    cumAvail waferRowC5 1 (fun j => 1 + j) 0 = 70 := by
  have h := claim_C5_cumulative_gap waferRowC5 1 (fun j => 1 + j) 1 5 rfl
    (by norm_num)
  constructor
  · rw [h.1]
    norm_num [demandSum, cumAvail, totalAvailable0, woBefore, resolveUnit,
      waferRowC5, List.range_succ]
  · rw [h.2.2.1]
    norm_num [woBefore, waferRowC5]

/-- C10: the monthly gap of a wafer type whose yield cell is 0 or missing
is reported as exactly 0 for any demand and allocation — the zero yield is
replaced by `NaN` before the division and the result filled with 0 — and in
particular the computation is total and never raises a division error. -/
theorem claim_C10_gap_total_on_zero_yield (demandV allocV : ℚ) :
    append_monthly_gap_columns demandV allocV none = 0 ∧
    append_monthly_gap_columns demandV allocV (some 0) = 0 := by
  constructor
  · rfl
  · rw [append_monthly_gap_columns, if_pos rfl]

/-!
## Period index builder and adjust-plan stage (`src/production_plan.py`)

`init_monthly_fields` scans the main-plan headers for the pattern
`^(\d{1,2})月预测$` (after stripping) and returns the sorted set of matched
month numbers, returning `[]` before adding any monthly column when nothing
matches.  `generate_monthly_adjust_plan` collects the `投单计划调整`,
`成品投单计划` (excluding `半成品`) and `成品实际投单` (excluding `半成品`)
columns and raises `ValueError` when any of the three lists is empty;
otherwise it writes per-row Excel formula strings (presentation, modelled
here by returning the processed adjust columns).
-/

/-- Substring test modelling Python's `pat in col`. -/
def strContains (hay pat : String) : Bool := decide (pat.data <:+: hay.data)

/-- The regex match `^(\d{1,2})月预测$` on the stripped column name: one or
two digits followed by `月预测`, returning the month number. -/
def parseForecastCol (s : String) : Option ℕ :=
  let cs := stripChars s.data
  let k := cs.length - 3
  let ds := cs.take k
  if cs.drop k = ['月', '预', '测'] ∧ 1 ≤ ds.length ∧ ds.length ≤ 2 ∧
      (∀ c ∈ ds, c.isDigit) then
    some (ds.foldl (fun acc c => 10 * acc + (c.toNat - ('0').toNat)) 0)
  else
    none

/-- The forecast-month horizon returned by `init_monthly_fields`: the
sorted set of months matched among the headers (empty when none match,
in which case the source returns before creating any monthly column). -/
def init_monthly_fields (cols : List String) : List ℕ :=
  ((cols.filterMap parseForecastCol).dedup).insertionSort (· ≤ ·)

/-- The target columns produced by `generate_monthly_fg_plan`: one
`{month}月成品投单计划` per month of `forecast_months[:-1]` (no output at
all for an empty horizon). -/
def fg_plan_target_months (months : List ℕ) : List ℕ := months.dropLast

/-- Model of `generate_monthly_adjust_plan`: raises `ValueError` when the adjust,
plan or actual column list is empty; otherwise processes the adjust
columns. -/
def generate_monthly_adjust_plan (cols : List String) :
    Except String (List String) :=
  let adjustCols := cols.filter (fun c => strContains c "投单计划调整")
  let fgPlanCols := cols.filter
    (fun c => strContains c "成品投单计划" && !strContains c "半成品")
  let fgActualCols := cols.filter
    (fun c => strContains c "成品实际投单" && !strContains c "半成品")
  if adjustCols.isEmpty || fgPlanCols.isEmpty || fgActualCols.isEmpty then
    Except.error "缺少必要的列：投单计划调整 / 成品投单计划 / 成品实际投单"
  else
    Except.ok adjustCols

/-- Main-plan headers with no forecast column. -/
def colsC7 : List String := ["品名", "InvPart", "安全库存"]

/-- C7 counterexample: on headers with no parsable forecast month the
period index builder does return an empty horizon, but the downstream
adjust-plan stage raises `ValueError` instead of producing empty output. -/
theorem claim_C7_counterexample :
    init_monthly_fields colsC7 = [] ∧
    generate_monthly_adjust_plan colsC7 =
      Except.error "缺少必要的列：投单计划调整 / 成品投单计划 / 成品实际投单" := by
  constructor
  · decide
  · rfl

/-- C7 amended: with no parsable forecast column the horizon is empty and
the plan generator emits no monthly column, but `generate_monthly_adjust_plan`
raises `ValueError` on such a frame (no adjust columns exist) rather than
no-opping. -/
theorem claim_C7_empty_horizon (cols : List String)
    (hparse : ∀ c ∈ cols, parseForecastCol c = none)
    (hadj : ∀ c ∈ cols, strContains c "投单计划调整" = false) :
    init_monthly_fields cols = [] ∧
    fg_plan_target_months (init_monthly_fields cols) = [] ∧
    generate_monthly_adjust_plan cols =
      Except.error "缺少必要的列：投单计划调整 / 成品投单计划 / 成品实际投单" := by
  have hinit : init_monthly_fields cols = [] := by
    rw [init_monthly_fields, List.filterMap_eq_nil_iff.mpr hparse]
    rfl
  refine ⟨hinit, by rw [hinit]; rfl, ?_⟩
  rw [generate_monthly_adjust_plan]
  have hfilter : cols.filter (fun c => strContains c "投单计划调整") = [] := by
    rw [List.filter_eq_nil_iff]
    intro c hc
    simp [hadj c hc]
  simp only [hfilter, List.isEmpty_nil, Bool.true_or, if_true]

/-- Witness for the C7 amended claim at `colsC7`. -/
theorem claim_C7_empty_horizon_witness :
    init_monthly_fields colsC7 = [] ∧
    fg_plan_target_months (init_monthly_fields colsC7) = [] ∧
    generate_monthly_adjust_plan colsC7 =
      Except.error "缺少必要的列：投单计划调整 / 成品投单计划 / 成品实际投单" :=
  claim_C7_empty_horizon colsC7 (by decide) (by decide)

/-!
## Semi-finished release planner write-back (`generate_monthly_semi_plan`)

The mapping sheet rows carry `新品名` (the finished good) and `半成品` (the
semi-finished part feeding it).  After `clean_df` the rows with a nonempty
`半成品` contribute both identifiers (stripped, deduplicated) to
`combined_names`; `mask` marks the main-plan rows whose stripped `品名` is
in that list.  Each `半成品投单计划` column is first set to the empty
string for every row and then overwritten on the masked rows with the
computed `df_plan` value — an unmasked row keeps the empty marker.  A cell
is modelled as `Option ℚ`, `none` being the empty string.
-/

/-- One row of the `赛卓-新旧料号` mapping sheet. -/
structure MappingRow where
  newName : String
  semi : String

/-- List `combined_names`: stripped `新品名` and `半成品` values of the mapping
rows whose `半成品` is nonempty, deduplicated (`unique()`). -/
def combinedNames (mapping : List MappingRow) : List String :=
  let tmp := mapping.filter (fun r => !(strip r.semi == ""))
  ((tmp.map (fun r => strip r.newName)) ++ (tmp.map (fun r => strip r.semi))).dedup

/-- One `半成品投单计划` column after the write-back: every row starts as
the empty string and only the rows whose stripped `品名` is in
`combined_names` receive their computed `df_plan` value.  Each input pair
is a main-plan row's `品名` together with the `df_plan` value computed for
it. -/
def generate_monthly_semi_plan (mapping : List MappingRow)
    (rows : List (String × ℚ)) : List (Option ℚ) :=
  rows.map (fun rv => if strip rv.1 ∈ combinedNames mapping then some rv.2 else none)

/-- C8: a main-plan row that participates in the finished-to-semi-finished
mapping neither as the semi-finished identifier nor as the finished
identifier it feeds holds the explicit empty marker (in particular not an
implicit zero) in the semi-finished plan column, and the mapped rows are
exactly the ones holding values. -/
theorem claim_C8_semi_plan_markers (mapping : List MappingRow)
    (rows : List (String × ℚ)) (i : ℕ) (name : String) (v : ℚ)
    (hrow : rows[i]? = some (name, v)) :
    ((∀ r ∈ mapping, strip r.semi ≠ "" →
        strip r.newName ≠ strip name ∧ strip r.semi ≠ strip name) →
      (generate_monthly_semi_plan mapping rows)[i]? = some none ∧
      (generate_monthly_semi_plan mapping rows)[i]? ≠ some (some 0)) ∧
    (strip name ∈ combinedNames mapping →
      (generate_monthly_semi_plan mapping rows)[i]? = some (some v)) := by
  have hget : (generate_monthly_semi_plan mapping rows)[i]? =
      some (if strip name ∈ combinedNames mapping then some v else none) := by
    rw [generate_monthly_semi_plan, List.getElem?_map, hrow, Option.map_some']
  constructor
  · intro hnot
    have hmem : strip name ∉ combinedNames mapping := by
      rw [combinedNames, List.mem_dedup]
      intro hmm
      rcases List.mem_append.mp hmm with hl | hl <;>
        obtain ⟨r, hr, he⟩ := List.mem_map.mp hl <;>
          obtain ⟨hrm, hsemi⟩ := List.mem_filter.mp hr
      · exact (hnot r hrm (by simpa using hsemi)).1 he
      · exact (hnot r hrm (by simpa using hsemi)).2 he
    rw [hget, if_neg hmem]
    exact ⟨rfl, by simp⟩
  · intro hmem
    rw [hget, if_pos hmem]

/-- Mapping sheet for the C8 witness: finished good `A1` fed by
semi-finished `B1`, plus a row with no semi-finished part. -/
def mappingC8 : List MappingRow := [⟨"A1", "B1 "⟩, ⟨"C1", " "⟩]

/-- Main-plan rows for the C8 witness: `B1` participates in the mapping,
`D4` does not. -/
def rowsC8 : List (String × ℚ) := [("D4", 55), ("B1", 66)]

/-- Witness for C8 at `mappingC8` and `rowsC8`: row 0 (`D4`, unmapped) gets
the empty marker, row 1 (`B1`, the semi-finished identifier) gets its
computed value 66. -/
theorem claim_C8_semi_plan_markers_witness :
    (generate_monthly_semi_plan mappingC8 rowsC8)[0]? = some none ∧
    (generate_monthly_semi_plan mappingC8 rowsC8)[1]? = some (some 66) := by
  constructor
  · exact ((claim_C8_semi_plan_markers mappingC8 rowsC8 0 "D4" 55 (by decide)).1
      (by decide)).1
  · exact (claim_C8_semi_plan_markers mappingC8 rowsC8 1 "B1" 66 (by decide)).2
      (by decide)

/-!
## Open-order aggregation (`src/summary.py`,
`append_unfulfilled_summary_columns_by_date`)

Each open order has a stripped `品名`, a due month (its `预交货日` mapped
to a year-month period; `none` models an unparseable date, whose group the
pandas `groupby` drops from both the history and the future table), and a
quantity.  Months are linearised to integers; `anchor` is the month of
`start_date` and `final` the month after the latest due date.  The source
sums quantities per (name, month), marks months strictly before the anchor
as history, pivots the non-history rows into `未交订单 YYYY-MM` columns over
`anchor..final`, adds each name's history total into the anchor column, and
drops the separate history column before merging into the main plan.
-/

/-- One open-order row: stripped name, due month (`none` when the due date
does not parse), quantity. -/
structure OrderRow where
  name : String
  due : Option ℤ
  qty : ℚ

/-- Total quantity of the orders of stripped name `n` whose due month
satisfies `p`. -/
def sumQtyBy (orders : List OrderRow) (n : String) (p : Option ℤ → Bool) : ℚ :=
  ((orders.filter (fun o => strip o.name == n && p o.due)).map (fun o => o.qty)).sum

/-- The history marker `月份 < today.to_period("M")`; an unparseable date
is never historical. -/
def isHistDue (anchor : ℤ) : Option ℤ → Bool
  | some d => decide (d < anchor)
  | none => false

/-- Due exactly in month `m`. -/
def dueIs (m : ℤ) : Option ℤ → Bool
  | some d => decide (d = m)
  | none => false

/-- Due in month `m` or earlier. -/
def dueOnOrBefore (m : ℤ) : Option ℤ → Bool
  | some d => decide (d ≤ m)
  | none => false

/-- The contiguous month list `a..b` (`pd.period_range`). -/
def monthRange (a b : ℤ) : List ℤ :=
  (List.range (b - a + 1).toNat).map (fun (k : ℕ) => a + (k : ℤ))

/-- The open-order columns appended to the main plan: the month keys of the
`未交订单 YYYY-MM` columns and the value of each (name, month) cell. -/
structure UnfulfilledCols where
  months : List ℤ
  value : String → ℤ → ℚ

/-- Model of `append_unfulfilled_summary_columns_by_date`, reduced to the cell
values it merges into the main plan: the pivot of the non-history orders
per month, with each name's history total added into the anchor month's
column and the separate history column dropped. -/
def append_unfulfilled_summary_columns_by_date (orders : List OrderRow)
    (anchor final : ℤ) : UnfulfilledCols where
  months := monthRange anchor final
  value := fun n m =>
    (if m = anchor then sumQtyBy orders n (isHistDue anchor) else 0) +
      sumQtyBy orders n (fun d => !(isHistDue anchor d) && dueIs m d)

theorem sumQtyBy_congr (orders : List OrderRow) (n : String)
    {p q : Option ℤ → Bool} (h : ∀ d, p d = q d) :
    sumQtyBy orders n p = sumQtyBy orders n q := by
  have he : (fun (o : OrderRow) => strip o.name == n && p o.due) =
      (fun (o : OrderRow) => strip o.name == n && q o.due) :=
    funext fun o => by rw [h o.due]
  rw [sumQtyBy, sumQtyBy, he]

theorem sumQtyBy_add_disjoint (orders : List OrderRow) (n : String)
    (p q r : Option ℤ → Bool) (hdis : ∀ d, !(p d && q d))
    (hun : ∀ d, (p d || q d) = r d) :
    sumQtyBy orders n p + sumQtyBy orders n q = sumQtyBy orders n r := by
  induction orders with
  | nil => simp [sumQtyBy]
  | cons o t ih =>
      rw [sumQtyBy, sumQtyBy, sumQtyBy] at ih ⊢
      rcases hname : (strip o.name == n) with _ | _
      · simpa [List.filter_cons, hname] using ih
      · have hu := hun o.due
        have hd := hdis o.due
        rcases hp : p o.due with _ | _ <;> rcases hq : q o.due with _ | _ <;>
          rw [hp, hq] at hu hd <;> simp only [Bool.or_self, Bool.or_true,
            Bool.true_or, Bool.or_false, Bool.false_or] at hu <;>
          simp [List.filter_cons, hname, hp, hq, ← hu] at hd ⊢ <;> linarith [ih]

/-- C9: every open order is bucketed by its due month: the anchor column
receives the whole quantity due strictly before the anchor plus the
quantity due in the anchor month itself (equivalently, everything due on or
before the anchor), every later column holds exactly the quantity due in
its month, and no column for a pre-anchor month survives into the output. -/
theorem claim_C9_open_order_bucketing (orders : List OrderRow)
    (anchor final : ℤ) (n : String) (hle : anchor ≤ final) :
    (append_unfulfilled_summary_columns_by_date orders anchor final).value n anchor =
      sumQtyBy orders n (dueOnOrBefore anchor) ∧
    (∀ m, anchor < m →
      (append_unfulfilled_summary_columns_by_date orders anchor final).value n m =
        sumQtyBy orders n (dueIs m)) ∧
    anchor ∈ (append_unfulfilled_summary_columns_by_date orders anchor final).months ∧
    (∀ m ∈ (append_unfulfilled_summary_columns_by_date orders anchor final).months,
      anchor ≤ m) := by
  refine ⟨?_, ?_, ?_, ?_⟩
  · have hfut : ∀ d, (!(isHistDue anchor d) && dueIs anchor d) = dueIs anchor d := by
      intro d
      cases d with
      | none => rfl
      | some dd =>
          show (!(decide (dd < anchor)) && decide (dd = anchor)) = decide (dd = anchor)
          by_cases hd : dd = anchor
          · subst hd
            simp
          · simp [hd]
    have hun : ∀ d, (isHistDue anchor d || dueIs anchor d) = dueOnOrBefore anchor d := by
      intro d
      cases d with
      | none => rfl
      | some dd =>
          show (decide (dd < anchor) || decide (dd = anchor)) = decide (dd ≤ anchor)
          rcases lt_trichotomy dd anchor with h | h | h
          · simp [h, le_of_lt h, ne_of_lt h]
          · simp [h, le_of_eq h]
          · simp [not_lt.mpr (le_of_lt h), ne_of_gt h, not_le.mpr h]
    have hdis : ∀ d, !(isHistDue anchor d && dueIs anchor d) := by
      intro d
      cases d with
      | none => rfl
      | some dd =>
          show (!(decide (dd < anchor) && decide (dd = anchor))) = true
          by_cases hd : dd = anchor
          · simp [hd]
          · simp [hd]
    rw [append_unfulfilled_summary_columns_by_date]
    simp only [if_pos rfl]
    rw [sumQtyBy_congr orders n hfut]
    exact sumQtyBy_add_disjoint orders n _ _ _ hdis hun
  · intro m hm
    have hfut : ∀ d, (!(isHistDue anchor d) && dueIs m d) = dueIs m d := by
      intro d
      cases d with
      | none => rfl
      | some dd =>
          show (!(decide (dd < anchor)) && decide (dd = m)) = decide (dd = m)
          by_cases hd : dd = m
          · subst hd
            simp [not_lt.mpr (le_of_lt hm)]
          · simp [hd]
    rw [append_unfulfilled_summary_columns_by_date]
    simp only [if_neg (by omega : ¬ m = anchor)]
    rw [sumQtyBy_congr orders n hfut, zero_add]
  · rw [append_unfulfilled_summary_columns_by_date]
    rw [monthRange, List.mem_map]
    refine ⟨0, List.mem_range.mpr ?_, by simp⟩
    omega
  · intro m hm
    rw [append_unfulfilled_summary_columns_by_date, monthRange,
      List.mem_map] at hm
    obtain ⟨k, hk, rfl⟩ := hm
    omega

/-- Orders for the C9 witness: SKU `P` due in months 3 (historical), 5 (the
anchor) and 6, one unparseable due date, and another SKU. -/
def ordersC9 : List OrderRow :=
  [⟨"P", some 3, 40⟩, ⟨"P ", some 5, 7⟩, ⟨"P", some 6, 9⟩,
   ⟨"P", none, 100⟩, ⟨"Q", some 3, 11⟩]

/-- Witness for C9 at `ordersC9` with anchor month 5 and final month 7:
SKU `P`'s anchor bucket is `40 + 7 = 47` (history folded in), month 6 holds
9, and the output months are `5, 6, 7`. -/
theorem claim_C9_open_order_bucketing_witness :
    (append_unfulfilled_summary_columns_by_date ordersC9 5 7).value "P" 5 =
      sumQtyBy ordersC9 "P" (dueOnOrBefore 5) ∧
    sumQtyBy ordersC9 "P" (dueOnOrBefore 5) = 47 ∧
    (append_unfulfilled_summary_columns_by_date ordersC9 5 7).value "P" 6 =
      sumQtyBy ordersC9 "P" (dueIs 6) ∧
    sumQtyBy ordersC9 "P" (dueIs 6) = 9 ∧
    (append_unfulfilled_summary_columns_by_date ordersC9 5 7).months = [5, 6, 7] := by
  have h := claim_C9_open_order_bucketing ordersC9 5 7 "P" (by norm_num)
  have hP : (strip "P" == "P") = true := by decide
  have hP2 : (strip "P " == "P") = true := by decide
  have hQ : (strip "Q" == "P") = false := by decide
  refine ⟨h.1, ?_, h.2.1 6 (by norm_num), ?_, ?_⟩
  · norm_num [sumQtyBy, ordersC9, List.filter_cons, hP, hP2, hQ, dueOnOrBefore]
  · norm_num [sumQtyBy, ordersC9, List.filter_cons, hP, hP2, hQ, dueIs]
  · rw [append_unfulfilled_summary_columns_by_date]
    decide

end OperationPlanning
